import Mathlib

/-!
Shallow embedding of the `langchain-soniox` document loader
(`src/langchain_soniox/document_loaders.py`, `errors.py`, `types.py`).

The loader orchestrates an upload → create → poll → fetch → cleanup
request sequence against a remote REST API.  We model the remote side
(the HTTP transport plus the JSON/pydantic parsing layer) as a `World`
value that supplies, for each network step, the response's status code,
raw text, and the results of the parse attempts the Python code makes
on the body.  The orchestration functions are transcribed statement by
statement from the source; each run returns the outcome together with
the trace of requests issued.

Python truthiness conventions that matter here are made explicit:
`if s:` on an optional string is `truthyStr`, on optional bytes
`truthyBytes`.  Wall-clock readings consumed by the polling loop
(`time.time() - start_time`) are supplied by the world, one per poll
iteration, as rationals.  Floats of the source (timeouts, confidences)
are modelled as rationals: the code only compares or carries them.
-/

deriving instance DecidableEq for Except

namespace Soniox

/-- Python truthiness of an optional string: `None` and `""` are falsy. -/
def truthyStr : Option String → Bool
  | none => false
  | some s => s ≠ ""

/-- Python truthiness of optional bytes: `None` and `b""` are falsy. -/
def truthyBytes : Option (List Nat) → Bool
  | none => false
  | some b => b ≠ []

/-- From `types.py`: `TranslationType = Literal["one_way", "two_way"]`. -/
inductive TranslationType where
  | one_way
  | two_way
deriving DecidableEq, Repr

/-- From `types.py`: `StructuredContextGeneralItem`. -/
structure StructuredContextGeneralItem where
  key : String
  value : String
deriving DecidableEq, Repr

/-- From `types.py`: `StructuredContextTranslationTerm`. -/
structure StructuredContextTranslationTerm where
  source : String
  target : String
deriving DecidableEq, Repr

/-- From `types.py`: `StructuredContext`. -/
structure StructuredContext where
  general : Option (List StructuredContextGeneralItem) := none
  text : Option String := none
  terms : Option (List String) := none
  translation_terms : Option (List StructuredContextTranslationTerm) := none
deriving DecidableEq, Repr

/-- From `types.py`: `TranslationConfig`. -/
structure TranslationConfig where
  type : TranslationType
  target_language : Option String := none
  language_a : Option String := none
  language_b : Option String := none
deriving DecidableEq, Repr

/-- From `types.py`: the `context` field is `Union[StructuredContext, str]`. -/
inductive ContextValue where
  | structured (c : StructuredContext)
  | plain (s : String)
deriving DecidableEq, Repr

/-- From `types.py`: `SonioxTranscriptionOptions`.  `model` has the default
`"stt-async-v4"`; every other field is optional with default `None`. -/
structure SonioxTranscriptionOptions where
  model : String := "stt-async-v4"
  language_hints : Option (List String) := none
  language_hints_strict : Option Bool := none
  enable_speaker_diarization : Option Bool := none
  enable_language_identification : Option Bool := none
  translation : Option TranslationConfig := none
  context : Option ContextValue := none
  webhook_url : Option String := none
  webhook_auth_header_name : Option String := none
  webhook_auth_header_value : Option String := none
  client_reference_id : Option String := none
deriving DecidableEq, Repr

/-- From `types.py`: `SonioxCreateTranscriptionRequest` extends the options
with the two audio-source fields. -/
structure SonioxCreateTranscriptionRequest extends SonioxTranscriptionOptions where
  audio_url : Option String := none
  file_id : Option String := none
deriving DecidableEq, Repr

/-- From `types.py`: `SonioxFileUploadResponse`. -/
structure SonioxFileUploadResponse where
  id : String
  filename : String
  size : Nat
  created_at : String
  client_reference_id : Option String := none
deriving DecidableEq, Repr

/-- From `types.py`: `TranscriptionStatus = Literal["queued", "processing",
"completed", "error"]`. -/
inductive TranscriptionStatus where
  | queued
  | processing
  | completed
  | error
deriving DecidableEq, Repr

/-- From `types.py`: `SonioxCreateTranscriptionResponse`; the status-poll
response (`SonioxTranscriptionStatusResponse`) is declared as an
identical subclass, so one record serves both. -/
structure SonioxCreateTranscriptionResponse where
  id : String
  status : TranscriptionStatus
  created_at : String
  model : String
  filename : String
  enable_speaker_diarization : Bool
  enable_language_identification : Bool
  audio_url : Option String := none
  file_id : Option String := none
  language_hints : Option (List String) := none
  audio_duration_ms : Option Int := none
  error_type : Option String := none
  error_message : Option String := none
  webhook_url : Option String := none
  webhook_auth_header_name : Option String := none
  webhook_auth_header_value : Option String := none
  webhook_status_code : Option Int := none
  client_reference_id : Option String := none
deriving DecidableEq, Repr

/-- From `types.py`: `SonioxTranscriptionStatusResponse` is structurally the
create response. -/
abbrev SonioxTranscriptionStatusResponse := SonioxCreateTranscriptionResponse

/-- From `types.py`: `TranscriptionToken` (extra fields tolerated by the
validator do not affect any claim, so the declared fields suffice). -/
structure TranscriptionToken where
  text : String
  start_ms : Option Int := none
  end_ms : Option Int := none
  confidence : ℚ
  speaker : Option String := none
  language : Option String := none
  translation_status : Option String := none
deriving DecidableEq, Repr

/-- From `types.py`: `SonioxTranscriptResponse`. -/
structure SonioxTranscriptResponse where
  id : String
  text : String
  tokens : List TranscriptionToken
deriving DecidableEq, Repr

/-- From `errors.py`: `ApiErrorValidationError`. -/
structure ApiErrorValidationError where
  error_type : String
  location : String
  message : String
deriving DecidableEq, Repr

/-- From `errors.py`: `ApiError`, the structured error payload the API may
return on a non-success response. -/
structure ApiError where
  status_code : Int
  error_type : String
  message : String
  validation_errors : List ApiErrorValidationError := []
  request_id : String
deriving DecidableEq, Repr

/-- One HTTP response as the Python code observes it: the status code,
the raw body text, the result of attempting to parse the body as the
structured `ApiError` shape (`errors.py` catches both JSON decoding
errors and validation errors, so a single `Option` models both), and
the result of validating the body as the expected success type `α`
(`none` models a `ValueError`/`ValidationError` from
`resp.json()`/`model_validate`, which the loader does not catch). -/
structure HttpResponse (α : Type) where
  status_code : Nat
  text : String := ""
  errorParse : Option ApiError := none
  body : Option α := none
deriving DecidableEq, Repr

/-- Model of `httpx.Response.is_error`: true exactly for 4xx and 5xx status
codes (`400 <= status_code <= 599`), per the httpx client library
the loader delegates the check to. -/
def HttpResponse.is_error {α : Type} (r : HttpResponse α) : Bool :=
  decide (400 ≤ r.status_code ∧ r.status_code ≤ 599)

/-- From `errors.py` lines 37–44: the message stored on `SonioxAPIError`.
If the structured parse succeeded, the structured `message` field;
otherwise the raw response text, or the generic fallback when the text
is empty (Python `response.text or f"Request failed with status ..."`). -/
def apiErrorMessage {α : Type} (r : HttpResponse α) : String :=
  match r.errorParse with
  | some e => e.message
  | none =>
      if r.text = "" then "Request failed with status " ++ toString r.status_code
      else r.text

/-- The exceptions a run of the loader can surface, one constructor per
exception class reaching the caller.  `apiError` records the status
code and message stored on `SonioxAPIError`; `validationError` stands
for an uncaught `ValueError`/`ValidationError` from body parsing;
`osError` for a failed `open` of the local file. -/
inductive Failure where
  | clientError (msg : String)
  | apiError (status_code : Nat) (message : String)
  | transcriptionFailed (msg : String)
  | timeoutError (msg : String)
  | validationError
  | osError
deriving DecidableEq, Repr

/-- The `errors.py` raising site for a non-success response:
`raise SonioxAPIError(resp)`. -/
def apiFailure {α : Type} (r : HttpResponse α) : Failure :=
  Failure.apiError r.status_code (apiErrorMessage r)

/-- The errors `SonioxDocumentLoader.__init__` can raise:
`SonioxClientError` from its own checks, or the `ValueError` that
`langchain_core.utils.get_from_env` raises when the key cannot be
resolved. -/
inductive InitError where
  | clientError (msg : String)
  | valueError (msg : String)
deriving DecidableEq, Repr

/-- Model of `langchain_core.utils.get_from_env(key, env_key)` as the loader
calls it (no default): returns the environment value when it is set
and non-empty, otherwise raises
`ValueError(f"Did not find {key}, ...")`.  This is the collaborator
behaviour the repository's own test `test_missing_api_key` pins down
(`pytest.raises(ValueError, match="Did not find api_key")`). -/
def get_from_env (key : String) (env_key : String) (env : Option String) :
    Except InitError String :=
  match env with
  | some v =>
      if v ≠ "" then Except.ok v
      else
        Except.error (InitError.valueError
          ("Did not find " ++ key ++ ", please add an environment variable `" ++
            env_key ++ "` which contains it, or pass `" ++ key ++
            "` as a named parameter."))
  | none =>
      Except.error (InitError.valueError
        ("Did not find " ++ key ++ ", please add an environment variable `" ++
          env_key ++ "` which contains it, or pass `" ++ key ++
          "` as a named parameter."))

/-- The state a successfully constructed `SonioxDocumentLoader` holds
(`document_loaders.py` lines 68–82). -/
structure SonioxDocumentLoader where
  api_key : String
  file_path : Option String
  file_data : Option (List Nat)
  file_url : Option String
  polling_interval_seconds : ℚ
  timeout_seconds : ℚ
  base_url : Option String
  options : SonioxTranscriptionOptions
  http_request_timeout_seconds : ℚ
deriving DecidableEq, Repr

/-- The keyword arguments of `SonioxDocumentLoader.__init__`, with the
source's defaults. -/
structure InitArgs where
  file_path : Option String := none
  file_data : Option (List Nat) := none
  file_url : Option String := none
  api_key : Option String := none
  base_url : Option String := some "https://api.soniox.com/v1"
  options : Option SonioxTranscriptionOptions := none
  polling_interval_seconds : ℚ := 1
  timeout_seconds : ℚ := 300
  http_request_timeout_seconds : ℚ := 60
deriving DecidableEq, Repr

/-- From `__init__` line 61: `sum(x is not None for x in (file_path,
file_data, file_url))`. -/
def argsProvided (a : InitArgs) : Nat :=
  (if a.file_path.isSome then 1 else 0) +
    (if a.file_data.isSome then 1 else 0) +
    (if a.file_url.isSome then 1 else 0)

/-- From `__init__` line 68: `api_key or get_from_env("api_key",
"SONIOX_API_KEY")` — the environment lookup is evaluated whenever the
argument is `None` or the empty string (Python `or` falsiness). -/
def resolve_api_key (api_key : Option String) (env : Option String) :
    Except InitError String :=
  match api_key with
  | some k =>
      if k ≠ "" then Except.ok k
      else get_from_env "api_key" "SONIOX_API_KEY" env
  | none => get_from_env "api_key" "SONIOX_API_KEY" env

/-- Model of `SonioxDocumentLoader.__init__` (`document_loaders.py` lines
61–82), with the process environment's `SONIOX_API_KEY` value passed
explicitly.  The `if not self.api_key` check that follows the key
resolution is transcribed even though no falsy value can reach it. -/
def SonioxDocumentLoader.init (a : InitArgs) (env : Option String) :
    Except InitError SonioxDocumentLoader :=
  if argsProvided a ≠ 1 then
    Except.error (InitError.clientError
      "You must specify exactly one of 'file_path', 'file_data', or 'file_url'.")
  else
    match resolve_api_key a.api_key env with
    | Except.error e => Except.error e
    | Except.ok key =>
        if key = "" then
          Except.error (InitError.clientError
            "Soniox API key must be provided or set in SONIOX_API_KEY env variable.")
        else
          Except.ok
            { api_key := key
              file_path := a.file_path
              file_data := a.file_data
              file_url := a.file_url
              polling_interval_seconds := a.polling_interval_seconds
              timeout_seconds := a.timeout_seconds
              base_url := a.base_url
              options := a.options.getD {}
              http_request_timeout_seconds := a.http_request_timeout_seconds }

/-- Reconstructing `SonioxCreateTranscriptionRequest(**options.model_dump(
exclude_none=True))` (`_prepare_create_payload` lines 106–108): every
option field carries over (fields dumped when set, defaulted back to the
same value when unset), and the two source fields start out `None`. -/
def SonioxTranscriptionOptions.toRequest (o : SonioxTranscriptionOptions) :
    SonioxCreateTranscriptionRequest :=
  { toSonioxTranscriptionOptions := o, audio_url := none, file_id := none }

/-- The keys present in `request_payload.model_dump(exclude_none=True)`
(`_prepare_create_payload` line 117): a field appears exactly when its
value is not `None`; `model` is not optional and always appears.  Keys
are listed in pydantic's field-declaration order. -/
def SonioxCreateTranscriptionRequest.dumpKeys
    (r : SonioxCreateTranscriptionRequest) : List String :=
  ["model"] ++
    (if r.language_hints.isSome then ["language_hints"] else []) ++
    (if r.language_hints_strict.isSome then ["language_hints_strict"] else []) ++
    (if r.enable_speaker_diarization.isSome
      then ["enable_speaker_diarization"] else []) ++
    (if r.enable_language_identification.isSome
      then ["enable_language_identification"] else []) ++
    (if r.translation.isSome then ["translation"] else []) ++
    (if r.context.isSome then ["context"] else []) ++
    (if r.webhook_url.isSome then ["webhook_url"] else []) ++
    (if r.webhook_auth_header_name.isSome
      then ["webhook_auth_header_name"] else []) ++
    (if r.webhook_auth_header_value.isSome
      then ["webhook_auth_header_value"] else []) ++
    (if r.client_reference_id.isSome then ["client_reference_id"] else []) ++
    (if r.audio_url.isSome then ["audio_url"] else []) ++
    (if r.file_id.isSome then ["file_id"] else [])

/-- Model of `SonioxDocumentLoader._prepare_create_payload` (lines 104–117).
Returns the request record whose exclude-none dump is posted, or the
`SonioxClientError` raised when neither a truthy `file_url` nor a
truthy `file_id` is available. -/
def SonioxDocumentLoader._prepare_create_payload (L : SonioxDocumentLoader)
    (file_id : Option String) : Except Failure SonioxCreateTranscriptionRequest :=
  let request_payload := L.options.toRequest
  if truthyStr L.file_url then
    Except.ok { request_payload with audio_url := L.file_url }
  else if truthyStr file_id then
    Except.ok { request_payload with file_id := file_id }
  else
    Except.error (Failure.clientError "No file source provided.")

/-- Python `f"{x}"` on an optional string: `None` prints as `"None"`. -/
def pyStrOpt : Option String → String
  | some s => s
  | none => "None"

/-- The metadata dict built by `_create_document` (lines 94–101); its
keys are fixed, so a record models the dict. -/
structure DocumentMetadata where
  source : String
  transcription_id : String
  audio_duration_ms : Option Int
  model : String
  created_at : String
  tokens : List TranscriptionToken
deriving DecidableEq, Repr

/-- Model of `langchain_core.documents.Document` as the loader populates it. -/
structure Document where
  page_content : String
  metadata : DocumentMetadata
deriving DecidableEq, Repr

/-- Python `a or b` on an optional string with a string fallback:
`None` and `""` are falsy and select the fallback. -/
def pyOrStr (a : Option String) (b : String) : String :=
  match a with
  | some s => if s = "" then b else s
  | none => b

/-- Model of `SonioxDocumentLoader._create_document` (lines 87–102).  The
`source` entry is `self.file_url or self.file_path or "file_upload"`;
the token dicts (`t.model_dump()`) are kept as the token records. -/
def SonioxDocumentLoader._create_document (L : SonioxDocumentLoader)
    (transcript_obj : SonioxTranscriptResponse)
    (status_data : SonioxTranscriptionStatusResponse)
    (transcription_id : String) : Document :=
  { page_content := transcript_obj.text
    metadata :=
      { source := pyOrStr L.file_url (pyOrStr L.file_path "file_upload")
        transcription_id := transcription_id
        audio_duration_ms := status_data.audio_duration_ms
        model := status_data.model
        created_at := status_data.created_at
        tokens := transcript_obj.tokens } }

/-- One HTTP request the loader issues, with the data that varies. -/
inductive Request where
  | postFiles
  | postTranscriptions (payload : SonioxCreateTranscriptionRequest)
  | getStatus (transcription_id : String)
  | getTranscript (transcription_id : String)
  | deleteTranscription (transcription_id : String)
  | deleteFile (file_id : String)
deriving DecidableEq, Repr

/-- The environment of one run: whether `open(self.file_path)`
succeeds, the response to each network step, the wall-clock reading
`time.time() - start_time` observed at the top of each poll iteration
(paired with that iteration's status response), and whether either
cleanup delete raises. -/
structure World where
  fileReadOk : Bool := true
  upload : HttpResponse SonioxFileUploadResponse
  create : HttpResponse SonioxCreateTranscriptionResponse
  polls : List (ℚ × HttpResponse SonioxTranscriptionStatusResponse)
  transcript : HttpResponse SonioxTranscriptResponse
  deleteJobRaises : Bool := false
  deleteFileRaises : Bool := false
deriving DecidableEq, Repr

/-- Step 1, the optional upload (`lazy_load` lines 134–151): `if
self.file_data:` posts the in-memory bytes; `elif self.file_path:`
opens the file (a failed `open` raises an uncaught `OSError` before
any request) and posts it; otherwise no upload happens and `file_id`
stays `None`.  Returns the `file_id` the loop bound, or the failure,
with the requests issued. -/
def uploadStep (L : SonioxDocumentLoader) (w : World) :
    Except Failure (Option String) × List Request :=
  if truthyBytes L.file_data then
    if w.upload.is_error then (Except.error (apiFailure w.upload), [Request.postFiles])
    else
      match w.upload.body with
      | none => (Except.error Failure.validationError, [Request.postFiles])
      | some parsed => (Except.ok (some parsed.id), [Request.postFiles])
  else if truthyStr L.file_path then
    if !w.fileReadOk then (Except.error Failure.osError, [])
    else
      if w.upload.is_error then (Except.error (apiFailure w.upload), [Request.postFiles])
      else
        match w.upload.body with
        | none => (Except.error Failure.validationError, [Request.postFiles])
        | some parsed => (Except.ok (some parsed.id), [Request.postFiles])
  else
    (Except.ok none, [])

/-- Step 3, the polling loop (`lazy_load` lines 162–188).  Each
iteration first compares the elapsed wall-clock time against
`timeout_seconds` (strictly: `time.time() - start_time >
self.timeout_seconds`) and raises `SonioxTimeoutError` before issuing
that iteration's status request; then issues the GET, raises
`SonioxAPIError` on an error response, breaks with the status data on
`"completed"`, raises `SonioxTranscriptionFailedError` on `"error"`,
and otherwise sleeps and continues.  A `none` result means the
supplied trace ended before the loop reached any of its exits. -/
def pollLoop (timeout_seconds : ℚ) (transcription_id : String) :
    List (ℚ × HttpResponse SonioxTranscriptionStatusResponse) →
      Option (Except Failure SonioxTranscriptionStatusResponse) × List Request
  | [] => (none, [])
  | (elapsed, resp) :: rest =>
      if timeout_seconds < elapsed then
        (some (Except.error (Failure.timeoutError
          ("Transcription timed out after " ++ toString timeout_seconds ++ "s"))),
          [])
      else if resp.is_error then
        (some (Except.error (apiFailure resp)),
          [Request.getStatus transcription_id])
      else
        match resp.body with
        | none =>
            (some (Except.error Failure.validationError),
              [Request.getStatus transcription_id])
        | some status_data =>
            if status_data.status = TranscriptionStatus.completed then
              (some (Except.ok status_data), [Request.getStatus transcription_id])
            else if status_data.status = TranscriptionStatus.error then
              (some (Except.error (Failure.transcriptionFailed
                ("Transcription failed: " ++ pyStrOpt status_data.error_message))),
                [Request.getStatus transcription_id])
            else
              let next := pollLoop timeout_seconds transcription_id rest
              (next.1, Request.getStatus transcription_id :: next.2)

/-- The state of a run when control reaches the `finally` block: the
outcome of the `try` body (`none` if the supplied poll trace was too
short to decide it), the requests issued so far, and the values of the
`file_id` and `transcription_id` locals. -/
structure StepsResult where
  result : Option (Except Failure Document)
  requests : List Request
  file_id : Option String
  transcription_id : Option String
deriving DecidableEq, Repr

/-- The `try` body of `lazy_load` (lines 133–200): upload, payload
preparation, job creation (lines 153–160), polling, transcript fetch
and parse (lines 190–196), document assembly.  `file_id` and
`transcription_id` are bound exactly when the corresponding parse
succeeded, matching the assignment points in the source. -/
def runSteps (L : SonioxDocumentLoader) (w : World) : StepsResult :=
  match uploadStep L w with
  | (Except.error f, reqs) => ⟨some (Except.error f), reqs, none, none⟩
  | (Except.ok file_id, reqs0) =>
      match L._prepare_create_payload file_id with
      | Except.error f => ⟨some (Except.error f), reqs0, file_id, none⟩
      | Except.ok payload =>
          if w.create.is_error then
            ⟨some (Except.error (apiFailure w.create)),
              reqs0 ++ [Request.postTranscriptions payload], file_id, none⟩
          else
            match w.create.body with
            | none =>
                ⟨some (Except.error Failure.validationError),
                  reqs0 ++ [Request.postTranscriptions payload], file_id, none⟩
            | some created =>
                match pollLoop L.timeout_seconds created.id w.polls with
                | (none, preqs) =>
                    ⟨none, reqs0 ++ [Request.postTranscriptions payload] ++ preqs,
                      file_id, some created.id⟩
                | (some (Except.error f), preqs) =>
                    ⟨some (Except.error f),
                      reqs0 ++ [Request.postTranscriptions payload] ++ preqs,
                      file_id, some created.id⟩
                | (some (Except.ok final_status), preqs) =>
                    if w.transcript.is_error then
                      ⟨some (Except.error (apiFailure w.transcript)),
                        reqs0 ++ [Request.postTranscriptions payload] ++ preqs ++
                          [Request.getTranscript created.id],
                        file_id, some created.id⟩
                    else
                      match w.transcript.body with
                      | none =>
                          ⟨some (Except.error Failure.validationError),
                            reqs0 ++ [Request.postTranscriptions payload] ++ preqs ++
                              [Request.getTranscript created.id],
                            file_id, some created.id⟩
                      | some transcript_obj =>
                          ⟨some (Except.ok (L._create_document transcript_obj
                              final_status created.id)),
                            reqs0 ++ [Request.postTranscriptions payload] ++ preqs ++
                              [Request.getTranscript created.id],
                            file_id, some created.id⟩

/-- The `finally` block (lines 202–215): a DELETE for the job when
`transcription_id` is truthy, then a DELETE for the file when
`file_id` is truthy.  The requests are issued regardless of whether
they raise — both deletes sit in their own `try/except Exception:
pass`, so nothing of their outcome escapes. -/
def cleanupRequests (transcription_id file_id : Option String) : List Request :=
  (match transcription_id with
   | some t => if t ≠ "" then [Request.deleteTranscription t] else []
   | none => []) ++
    (match file_id with
     | some f => if f ≠ "" then [Request.deleteFile f] else []
     | none => [])

/-- Model of `SonioxDocumentLoader.lazy_load` (lines 119–215) over a given
world, run to completion: the `base_url` guard (lines 123–124) fires
before the client is opened, so nothing is issued; otherwise the `try`
body runs and the `finally` deletes are appended whatever the outcome.
`Except.ok` is the single yielded document; `Except.error` is the
exception propagating to the caller (zero documents).  The
`deleteJobRaises`/`deleteFileRaises` flags of the world are not
consulted: both cleanup exceptions are swallowed. -/
def SonioxDocumentLoader.lazy_load (L : SonioxDocumentLoader) (w : World) :
    Option (Except Failure Document × List Request) :=
  match L.base_url with
  | none => some (Except.error (Failure.clientError "base_url must be provided."), [])
  | some _ =>
      match runSteps L w with
      | ⟨none, _, _, _⟩ => none
      | ⟨some res, reqs, file_id, transcription_id⟩ =>
          some (res, reqs ++ cleanupRequests transcription_id file_id)

/-- Step 1 of `alazy_load` (lines 231–250).  The only textual
difference from the synchronous branch is that the `file_path` case
reads the whole file into memory before posting (source comment at
lines 239–241); a failed `open` still raises before any request, so
the observable step is the same. -/
def uploadStepAsync (L : SonioxDocumentLoader) (w : World) :
    Except Failure (Option String) × List Request :=
  if truthyBytes L.file_data then
    if w.upload.is_error then (Except.error (apiFailure w.upload), [Request.postFiles])
    else
      match w.upload.body with
      | none => (Except.error Failure.validationError, [Request.postFiles])
      | some parsed => (Except.ok (some parsed.id), [Request.postFiles])
  else if truthyStr L.file_path then
    if !w.fileReadOk then (Except.error Failure.osError, [])
    else
      if w.upload.is_error then (Except.error (apiFailure w.upload), [Request.postFiles])
      else
        match w.upload.body with
        | none => (Except.error Failure.validationError, [Request.postFiles])
        | some parsed => (Except.ok (some parsed.id), [Request.postFiles])
  else
    (Except.ok none, [])

/-- Step 3 of `alazy_load` (lines 263–289): identical to the
synchronous loop except that the inter-poll delay is `await
asyncio.sleep(...)` instead of `time.sleep(...)`; the delay issues no
request and alters no state, so it leaves no mark here either. -/
def pollLoopAsync (timeout_seconds : ℚ) (transcription_id : String) :
    List (ℚ × HttpResponse SonioxTranscriptionStatusResponse) →
      Option (Except Failure SonioxTranscriptionStatusResponse) × List Request
  | [] => (none, [])
  | (elapsed, resp) :: rest =>
      if timeout_seconds < elapsed then
        (some (Except.error (Failure.timeoutError
          ("Transcription timed out after " ++ toString timeout_seconds ++ "s"))),
          [])
      else if resp.is_error then
        (some (Except.error (apiFailure resp)),
          [Request.getStatus transcription_id])
      else
        match resp.body with
        | none =>
            (some (Except.error Failure.validationError),
              [Request.getStatus transcription_id])
        | some status_data =>
            if status_data.status = TranscriptionStatus.completed then
              (some (Except.ok status_data), [Request.getStatus transcription_id])
            else if status_data.status = TranscriptionStatus.error then
              (some (Except.error (Failure.transcriptionFailed
                ("Transcription failed: " ++ pyStrOpt status_data.error_message))),
                [Request.getStatus transcription_id])
            else
              let next := pollLoopAsync timeout_seconds transcription_id rest
              (next.1, Request.getStatus transcription_id :: next.2)

/-- The `try` body of `alazy_load` (lines 230–301). -/
def runStepsAsync (L : SonioxDocumentLoader) (w : World) : StepsResult :=
  match uploadStepAsync L w with
  | (Except.error f, reqs) => ⟨some (Except.error f), reqs, none, none⟩
  | (Except.ok file_id, reqs0) =>
      match L._prepare_create_payload file_id with
      | Except.error f => ⟨some (Except.error f), reqs0, file_id, none⟩
      | Except.ok payload =>
          if w.create.is_error then
            ⟨some (Except.error (apiFailure w.create)),
              reqs0 ++ [Request.postTranscriptions payload], file_id, none⟩
          else
            match w.create.body with
            | none =>
                ⟨some (Except.error Failure.validationError),
                  reqs0 ++ [Request.postTranscriptions payload], file_id, none⟩
            | some created =>
                match pollLoopAsync L.timeout_seconds created.id w.polls with
                | (none, preqs) =>
                    ⟨none, reqs0 ++ [Request.postTranscriptions payload] ++ preqs,
                      file_id, some created.id⟩
                | (some (Except.error f), preqs) =>
                    ⟨some (Except.error f),
                      reqs0 ++ [Request.postTranscriptions payload] ++ preqs,
                      file_id, some created.id⟩
                | (some (Except.ok final_status), preqs) =>
                    if w.transcript.is_error then
                      ⟨some (Except.error (apiFailure w.transcript)),
                        reqs0 ++ [Request.postTranscriptions payload] ++ preqs ++
                          [Request.getTranscript created.id],
                        file_id, some created.id⟩
                    else
                      match w.transcript.body with
                      | none =>
                          ⟨some (Except.error Failure.validationError),
                            reqs0 ++ [Request.postTranscriptions payload] ++ preqs ++
                              [Request.getTranscript created.id],
                            file_id, some created.id⟩
                      | some transcript_obj =>
                          ⟨some (Except.ok (L._create_document transcript_obj
                              final_status created.id)),
                            reqs0 ++ [Request.postTranscriptions payload] ++ preqs ++
                              [Request.getTranscript created.id],
                            file_id, some created.id⟩

/-- Model of `SonioxDocumentLoader.alazy_load` (lines 217–316) over a given
world, run to completion; same `base_url` guard (lines 220–221) and
`finally` cleanup (lines 303–316) as the synchronous form. -/
def SonioxDocumentLoader.alazy_load (L : SonioxDocumentLoader) (w : World) :
    Option (Except Failure Document × List Request) :=
  match L.base_url with
  | none => some (Except.error (Failure.clientError "base_url must be provided."), [])
  | some _ =>
      match runStepsAsync L w with
      | ⟨none, _, _, _⟩ => none
      | ⟨some res, reqs, file_id, transcription_id⟩ =>
          some (res, reqs ++ cleanupRequests transcription_id file_id)

/-- Whether a run outcome is the single yielded document. -/
def isSuccess : Except Failure Document → Bool
  | Except.ok _ => true
  | Except.error _ => false

/-- Whether a request is one of the two cleanup deletes. -/
def isDeleteReq : Request → Bool
  | Request.deleteTranscription _ => true
  | Request.deleteFile _ => true
  | _ => false

/-- How many delete calls a request trace contains. -/
def deleteCount (reqs : List Request) : Nat :=
  (reqs.filter isDeleteReq).length

/-- Whether a request is the transcript fetch. -/
def isTranscriptFetch : Request → Bool
  | Request.getTranscript _ => true
  | _ => false

/-- Whether a poll iteration falls through to the sleep and the next
iteration: the elapsed reading does not exceed the timeout, the
response is not an error response, its body validates, and the status
is neither `completed` nor `error`. -/
def pollContinues (timeout_seconds : ℚ)
    (p : ℚ × HttpResponse SonioxTranscriptionStatusResponse) : Bool :=
  !decide (timeout_seconds < p.1) && !p.2.is_error &&
    match p.2.body with
    | none => false
    | some status_data =>
        !decide (status_data.status = TranscriptionStatus.completed) &&
          !decide (status_data.status = TranscriptionStatus.error)

/-- How many of the three audio-source fields a constructed loader
holds non-`None` (the constructed counterpart of `argsProvided`). -/
def sourcesProvided (L : SonioxDocumentLoader) : Nat :=
  (if L.file_path.isSome then 1 else 0) +
    (if L.file_data.isSome then 1 else 0) +
    (if L.file_url.isSome then 1 else 0)

/-- Fixture: a parsed file-upload response (the repository's test
data). -/
def sampleUploadBody : SonioxFileUploadResponse :=
  { id := "file_123", filename := "test.mp3", size := 1024,
    created_at := "2024-11-26T00:00:00Z" }

/-- Fixture: a parsed job-creation response. -/
def sampleCreateBody : SonioxCreateTranscriptionResponse :=
  { id := "trans_456", status := TranscriptionStatus.queued,
    created_at := "2024-11-26T00:00:01Z", model := "stt-rt-v3",
    filename := "test.mp3", enable_speaker_diarization := false,
    enable_language_identification := false }

/-- Fixture: a `completed` status-poll body. -/
def sampleCompleted : SonioxTranscriptionStatusResponse :=
  { sampleCreateBody with status := TranscriptionStatus.completed, audio_duration_ms := some 1000 }

/-- Fixture: a `processing` status-poll body. -/
def sampleProcessing : SonioxTranscriptionStatusResponse :=
  { sampleCreateBody with status := TranscriptionStatus.processing }

/-- Fixture: an `error` status-poll body with a server message. -/
def sampleErrorStatus : SonioxTranscriptionStatusResponse :=
  { sampleCreateBody with status := TranscriptionStatus.error, error_message := some "Audio format not supported" }

/-- Fixture: a parsed transcript response with two tokens. -/
def sampleTranscript : SonioxTranscriptResponse :=
  { id := "trans_456", text := "Hello world",
    tokens := [
      { text := "Hello", start_ms := some 0, end_ms := some 500,
        confidence := 1 },
      { text := "world", start_ms := some 500, end_ms := some 1000,
        confidence := 1 }] }

/-- Fixture: a loader built from a `file_url` source. -/
def urlLoader : SonioxDocumentLoader :=
  { api_key := "test_key", file_path := none, file_data := none,
    file_url := some "https://example.com/audio.mp3",
    polling_interval_seconds := 1, timeout_seconds := 300,
    base_url := some "https://api.soniox.com/v1", options := {},
    http_request_timeout_seconds := 60 }

/-- Fixture: a loader built from a `file_path` source. -/
def pathLoader : SonioxDocumentLoader :=
  { urlLoader with file_url := none, file_path := some "test.mp3" }

/-- Fixture: a loader built from an empty `file_data` source, as
`SonioxDocumentLoader(file_data=b"", api_key="test_key")` constructs
it. -/
def emptyDataLoader : SonioxDocumentLoader :=
  { urlLoader with file_url := none, file_data := some [] }

/-- Fixture: a world in which every step succeeds and the first poll
already reports `completed`. -/
def successWorld : World :=
  { upload := { status_code := 200, body := some sampleUploadBody },
    create := { status_code := 200, body := some sampleCreateBody },
    polls := [(0, { status_code := 200, body := some sampleCompleted })],
    transcript := { status_code := 200, body := some sampleTranscript } }

/-- Fixture: as `successWorld`, but the server hands out the empty
string as the job identifier. -/
def emptyIdWorld : World :=
  { successWorld with
    create := { status_code := 200, body := some { sampleCreateBody with id := "" } } }

/-- Fixture: as `successWorld`, but the job-creation response carries
the 3xx status code 300; `httpx` does not classify 3xx as an error
response. -/
def redirectWorld : World :=
  { successWorld with
    create := { status_code := 300, body := some sampleCreateBody } }

/-- Fixture: a world whose job-creation step fails with a 500 and an
unparseable body. -/
def create500World : World :=
  { successWorld with
    create := { status_code := 500, text := "Internal Server Error" } }

/-- Fixture: a world whose first poll reports the `error` status. -/
def errorStatusWorld : World :=
  { successWorld with
    polls := [(0, { status_code := 200, body := some sampleErrorStatus })] }

/-- Fixture: the job-creation payload a default-options `file_url`
loader posts. -/
def urlPayload : SonioxCreateTranscriptionRequest :=
  { audio_url := some "https://example.com/audio.mp3" }

/-- Fixture: the job-creation payload the `file_path` fixture posts
after its upload. -/
def pathPayload : SonioxCreateTranscriptionRequest :=
  { file_id := some "file_123" }

/-- Fixture: the document `urlLoader` yields in `successWorld`. -/
def successDocUrl : Document :=
  { page_content := "Hello world",
    metadata :=
      { source := "https://example.com/audio.mp3",
        transcription_id := "trans_456",
        audio_duration_ms := some 1000,
        model := "stt-rt-v3",
        created_at := "2024-11-26T00:00:01Z",
        tokens := sampleTranscript.tokens } }

/-- Fixture: the document `pathLoader` yields in `successWorld`. -/
def successDocPath : Document :=
  { successDocUrl with
    metadata := { successDocUrl.metadata with source := "test.mp3" } }

/-- Fixture: the `try`-body request trace of `urlLoader` in
`successWorld`. -/
def urlBodyTrace : List Request :=
  [Request.postTranscriptions urlPayload, Request.getStatus "trans_456",
    Request.getTranscript "trans_456"]

/-- Fixture: the `try`-body request trace of `pathLoader` in
`successWorld`. -/
def pathBodyTrace : List Request :=
  [Request.postFiles, Request.postTranscriptions pathPayload,
    Request.getStatus "trans_456", Request.getTranscript "trans_456"]

/-- Fixture: a non-error `processing` status response. -/
def processingResp : HttpResponse SonioxTranscriptionStatusResponse :=
  { status_code := 200, body := some sampleProcessing }

/-- The message `langchain_core`'s `get_from_env` raises for the
loader's `api_key` lookup. -/
def missingKeyMessage : String :=
  "Did not find api_key, please add an environment variable `SONIOX_API_KEY` which contains it, or pass `api_key` as a named parameter."

/-- Whether a construction result is the loader's own
`SonioxClientError`. -/
def isClientErrorResult : Except InitError SonioxDocumentLoader → Bool
  | Except.error (InitError.clientError _) => true
  | _ => false

/-- The two transcriptions of the upload step are the same function. -/
theorem uploadStepAsync_eq (L : SonioxDocumentLoader) (w : World) :
    uploadStepAsync L w = uploadStep L w := rfl

/-- The two transcriptions of the polling loop are the same function. -/
theorem pollLoopAsync_eq (t : ℚ) (tid : String) :
    ∀ l, pollLoopAsync t tid l = pollLoop t tid l
  | [] => rfl
  | p :: rest => by
      simp only [pollLoopAsync, pollLoop]
      rw [pollLoopAsync_eq t tid rest]

/-- The two transcriptions of the `try` body are the same function. -/
theorem runStepsAsync_eq (L : SonioxDocumentLoader) (w : World) :
    runStepsAsync L w = runSteps L w := by
  unfold runStepsAsync runSteps
  simp only [uploadStepAsync_eq, pollLoopAsync_eq]

/-- A poll iteration that neither times out nor terminates issues its
status request and hands control to the rest of the loop. -/
theorem pollLoop_cons_continue (t : ℚ) (tid : String)
    (p : ℚ × HttpResponse SonioxTranscriptionStatusResponse)
    (rest : List (ℚ × HttpResponse SonioxTranscriptionStatusResponse))
    (h : pollContinues t p = true) :
    pollLoop t tid (p :: rest) =
      ((pollLoop t tid rest).1,
        Request.getStatus tid :: (pollLoop t tid rest).2) := by
  obtain ⟨e, r⟩ := p
  cases hb : r.body with
  | none => simp [pollContinues, hb] at h
  | some sd =>
      simp only [pollContinues, hb, Bool.and_eq_true, Bool.not_eq_true',
        decide_eq_false_iff_not] at h
      obtain ⟨⟨h1, h2⟩, h3, h4⟩ := h
      simp [pollLoop, hb, h1, h2, h3, h4]

/-- A block of non-terminal iterations contributes one status request
each and passes control to the rest of the loop. -/
theorem pollLoop_append_continues (t : ℚ) (tid : String)
    (pre rest : List (ℚ × HttpResponse SonioxTranscriptionStatusResponse))
    (h : ∀ p ∈ pre, pollContinues t p = true) :
    pollLoop t tid (pre ++ rest) =
      ((pollLoop t tid rest).1,
        List.replicate pre.length (Request.getStatus tid) ++
          (pollLoop t tid rest).2) := by
  induction pre with
  | nil => simp
  | cons p pre ih =>
      have hp : pollContinues t p = true := h p (List.mem_cons_self p pre)
      have hrest : ∀ q ∈ pre, pollContinues t q = true :=
        fun q hq => h q (List.mem_cons_of_mem p hq)
      rw [List.cons_append, pollLoop_cons_continue t tid p (pre ++ rest) hp,
        ih hrest]
      simp [List.replicate_succ]

/-- If the loop raised the timeout failure, some iteration boundary saw
an elapsed reading strictly above the deadline, every earlier iteration
fell through, and no request was issued for the timing-out iteration. -/
theorem pollLoop_timeout_inv (t : ℚ) (tid : String)
    (polls : List (ℚ × HttpResponse SonioxTranscriptionStatusResponse))
    (m : String) (reqs : List Request)
    (h : pollLoop t tid polls = (some (Except.error (Failure.timeoutError m)), reqs)) :
    ∃ pre er rest, polls = pre ++ er :: rest ∧
      (∀ p ∈ pre, pollContinues t p = true) ∧ t < er.1 ∧
      reqs = List.replicate pre.length (Request.getStatus tid) := by
  induction polls generalizing reqs with
  | nil => simp [pollLoop] at h
  | cons p rest ih =>
      obtain ⟨e, r⟩ := p
      by_cases hte : t < e
      · refine ⟨[], (e, r), rest, rfl, by simp, hte, ?_⟩
        simp [pollLoop, hte] at h
        simp [← h.2]
      · by_cases herr : r.is_error = true
        · simp [pollLoop, hte, herr, apiFailure] at h
        · cases hb : r.body with
          | none => simp [pollLoop, hte, herr, hb] at h
          | some sd =>
              by_cases hc : sd.status = TranscriptionStatus.completed
              · simp [pollLoop, hte, herr, hb, hc] at h
              · by_cases hs : sd.status = TranscriptionStatus.error
                · simp [pollLoop, hte, herr, hb, hc, hs] at h
                · have hcont : pollContinues t (e, r) = true := by
                    simp [pollContinues, hte, herr, hb, hc, hs]
                  rw [pollLoop_cons_continue t tid (e, r) rest hcont] at h
                  have h1 : (pollLoop t tid rest).1 =
                      some (Except.error (Failure.timeoutError m)) :=
                    congrArg Prod.fst h
                  have h2 : Request.getStatus tid :: (pollLoop t tid rest).2 = reqs :=
                    congrArg Prod.snd h
                  have hr2 : pollLoop t tid rest =
                      (some (Except.error (Failure.timeoutError m)),
                        (pollLoop t tid rest).2) := by
                    rw [← h1]
                  obtain ⟨pre, er, rest2, hsplit, hpre, hlt, hreqs⟩ :=
                    ih (pollLoop t tid rest).2 hr2
                  refine ⟨(e, r) :: pre, er, rest2,
                    by rw [hsplit, List.cons_append], ?_, hlt, ?_⟩
                  · intro q hq
                    rcases List.mem_cons.mp hq with hq | hq
                    · exact hq ▸ hcont
                    · exact hpre q hq
                  · rw [← h2, hreqs]
                    simp [List.replicate_succ]

/-- The upload step issues either no request or exactly the one file
POST. -/
theorem uploadStep_requests (L : SonioxDocumentLoader) (w : World) :
    (uploadStep L w).2 = [] ∨ (uploadStep L w).2 = [Request.postFiles] := by
  unfold uploadStep
  split
  · split
    · right; rfl
    · split <;> simp
  · split
    · split
      · left; rfl
      · split
        · right; rfl
        · split <;> simp
    · left; rfl

/-- Every request issued by the polling loop is a status GET. -/
theorem pollLoop_requests (t : ℚ) (tid : String) :
    ∀ l q, q ∈ (pollLoop t tid l).2 → q = Request.getStatus tid := by
  intro l
  induction l with
  | nil => simp [pollLoop]
  | cons p rest ih =>
      obtain ⟨e, r⟩ := p
      intro q hq
      by_cases hte : t < e
      · simp [pollLoop, hte] at hq
      · by_cases herr : r.is_error = true
        · simp [pollLoop, hte, herr] at hq; exact hq
        · cases hb : r.body with
          | none => simp [pollLoop, hte, herr, hb] at hq; exact hq
          | some sd =>
              by_cases hc : sd.status = TranscriptionStatus.completed
              · simp [pollLoop, hte, herr, hb, hc] at hq; exact hq
              · by_cases hs : sd.status = TranscriptionStatus.error
                · simp [pollLoop, hte, herr, hb, hc, hs] at hq; exact hq
                · simp [pollLoop, hte, herr, hb, hc, hs, List.mem_cons] at hq
                  rcases hq with hq | hq
                  · exact hq
                  · exact ih q hq

/-- Inversion of a successful run of the `try` body: every stage
succeeded, the bound identifiers come from the parsed bodies, and the
yielded document is assembled by `_create_document` from the transcript
and the final (`completed`) status response. -/
theorem runSteps_ok_inv {L : SonioxDocumentLoader} {w : World}
    {d : Document} {reqs : List Request} {fid tid : Option String}
    (h : runSteps L w = ⟨some (Except.ok d), reqs, fid, tid⟩) :
    (uploadStep L w).1 = Except.ok fid ∧
    (∃ payload, L._prepare_create_payload fid = Except.ok payload) ∧
    w.create.is_error = false ∧
    ∃ cb, w.create.body = some cb ∧ tid = some cb.id ∧
      ∃ fs preqs,
        pollLoop L.timeout_seconds cb.id w.polls =
          (some (Except.ok fs), preqs) ∧
        w.transcript.is_error = false ∧
        ∃ tr, w.transcript.body = some tr ∧
          d = L._create_document tr fs cb.id := by
  unfold runSteps at h
  split at h
  next f reqs2 heq => simp_all
  next fid2 reqs0 heq =>
    split at h
    next f heq2 => simp_all
    next payload heq2 =>
      split at h
      · simp_all
      · split at h
        next => simp_all
        next created hbody =>
          split at h
          next preqs hpoll => simp_all
          next f preqs hpoll => simp_all
          next fs preqs hpoll =>
            split at h
            · simp_all
            · split at h
              next htr => simp_all
              next tr htr =>
                simp only [StepsResult.mk.injEq] at h
                obtain ⟨h1, h2, h3, h4⟩ := h
                subst h3 h4
                refine ⟨by rw [heq], ⟨payload, heq2⟩, by simp_all, created,
                  hbody, rfl, fs, preqs, hpoll, by simp_all, tr, htr, ?_⟩
                simp_all

/-- When neither in-memory bytes nor a path is truthy, step 1 does
nothing and `file_id` stays `None`. -/
theorem uploadStep_skip {L : SonioxDocumentLoader} (w : World)
    (h1 : truthyBytes L.file_data = false) (h2 : truthyStr L.file_path = false) :
    uploadStep L w = (Except.ok none, []) := by
  simp [uploadStep, h1, h2]

/-- If step 1 bound some `file_id`, it is the `id` of the parsed upload
response. -/
theorem uploadStep_ok_some_inv {L : SonioxDocumentLoader} {w : World} {f : String}
    (h : (uploadStep L w).1 = Except.ok (some f)) :
    ∃ b, w.upload.body = some b ∧ f = b.id := by
  unfold uploadStep at h
  split at h
  · split at h
    · simp at h
    · split at h
      · simp at h
      next parsed hb => exact ⟨parsed, hb, by simpa using h.symm⟩
  · split at h
    · split at h
      · simp at h
      · split at h
        · simp at h
        · split at h
          · simp at h
          next parsed hb => exact ⟨parsed, hb, by simpa using h.symm⟩
    · simp at h

/-- The `try` body never issues a delete: deletes happen only in the
`finally` block. -/
theorem runSteps_no_delete (L : SonioxDocumentLoader) (w : World) :
    ∀ q ∈ (runSteps L w).requests, isDeleteReq q = false := by
  intro q hq
  have hums : ∀ x ∈ (uploadStep L w).2, isDeleteReq x = false := by
    rcases uploadStep_requests L w with h | h <;> rw [h] <;> simp [isDeleteReq]
  have hpms : ∀ tid x, x ∈ (pollLoop L.timeout_seconds tid w.polls).2 →
      isDeleteReq x = false := by
    intro tid x hx
    rw [pollLoop_requests L.timeout_seconds tid w.polls x hx]
    rfl
  unfold runSteps at hq
  split at hq
  next f reqs2 heq =>
    apply hums
    rw [heq]
    exact hq
  next fid reqs0 heq =>
    have hums0 : ∀ x ∈ reqs0, isDeleteReq x = false := by
      intro x hx; apply hums; rw [heq]; exact hx
    split at hq
    next f heq2 => exact hums0 q hq
    next payload heq2 =>
      split at hq
      · simp only [List.mem_append, List.mem_singleton] at hq
        rcases hq with hq | hq
        · exact hums0 q hq
        · subst hq; rfl
      · split at hq
        next =>
          simp only [List.mem_append, List.mem_singleton] at hq
          rcases hq with hq | hq
          · exact hums0 q hq
          · subst hq; rfl
        next created hbody =>
          split at hq
          next preqs hpoll =>
            simp only [List.mem_append, List.mem_singleton] at hq
            rcases hq with (hq | hq) | hq
            · exact hums0 q hq
            · subst hq; rfl
            · exact hpms created.id q (by rw [congrArg Prod.snd hpoll]; exact hq)
          next f preqs hpoll =>
            simp only [List.mem_append, List.mem_singleton] at hq
            rcases hq with (hq | hq) | hq
            · exact hums0 q hq
            · subst hq; rfl
            · exact hpms created.id q (by rw [congrArg Prod.snd hpoll]; exact hq)
          next fs preqs hpoll =>
            have hmem4 : q ∈ reqs0 ++ [Request.postTranscriptions payload] ++
                preqs ++ [Request.getTranscript created.id] → isDeleteReq q = false := by
              intro hx
              simp only [List.mem_append, List.mem_singleton] at hx
              rcases hx with ((hx | hx) | hx) | hx
              · exact hums0 q hx
              · subst hx; rfl
              · exact hpms created.id q (by rw [congrArg Prod.snd hpoll]; exact hx)
              · subst hx; rfl
            split at hq
            · exact hmem4 hq
            · split at hq
              next => exact hmem4 hq
              next tr htr => exact hmem4 hq

/-- Inversion of a successful construction: the argument check passed
and the loader stores the given sources and base URL. -/
theorem init_ok_inv {a : InitArgs} {env : Option String}
    {L : SonioxDocumentLoader}
    (h : SonioxDocumentLoader.init a env = Except.ok L) :
    argsProvided a = 1 ∧ L.file_path = a.file_path ∧
      L.file_data = a.file_data ∧ L.file_url = a.file_url ∧
      L.base_url = a.base_url := by
  unfold SonioxDocumentLoader.init at h
  by_cases hargs : argsProvided a = 1
  · simp only [hargs, ne_eq, not_true_eq_false, if_false, reduceIte] at h
    split at h
    · simp at h
    · split at h
      · simp at h
      · injection h with h
        exact ⟨hargs, by rw [← h], by rw [← h], by rw [← h], by rw [← h]⟩
  · simp [hargs] at h

/-- Membership in a conditional singleton list. -/
theorem mem_if_singleton {c : Prop} [Decidable c] {x y : String} :
    (x ∈ (if c then [y] else ([] : List String))) ↔ (c ∧ x = y) := by
  split <;> simp_all

/-- A truthy optional string is some non-empty string. -/
theorem truthyStr_some_inv {o : Option String} (h : truthyStr o = true) :
    ∃ s, o = some s ∧ s ≠ "" := by
  cases o with
  | none => simp [truthyStr] at h
  | some s => exact ⟨s, rfl, by simpa [truthyStr] using h⟩

/-- Inversion of a successful payload preparation: either the URL
branch was taken, or the `file_id` branch with a truthy identifier. -/
theorem prepare_ok_inv {L : SonioxDocumentLoader} {fid : Option String}
    {payload : SonioxCreateTranscriptionRequest}
    (h : L._prepare_create_payload fid = Except.ok payload) :
    truthyStr L.file_url = true ∨
      (truthyStr L.file_url = false ∧ ∃ f, fid = some f ∧ f ≠ "") := by
  unfold SonioxDocumentLoader._prepare_create_payload at h
  by_cases hu : truthyStr L.file_url = true
  · exact Or.inl hu
  · rw [if_neg hu] at h
    by_cases hf : truthyStr fid = true
    · exact Or.inr ⟨by simpa using hu, truthyStr_some_inv hf⟩
    · rw [if_neg hf] at h
      simp at h

/-- Every request of the `finally` block is a delete. -/
theorem cleanup_mem_delete (tid fid : Option String) :
    ∀ q ∈ cleanupRequests tid fid, isDeleteReq q = true := by
  intro q hq
  unfold cleanupRequests at hq
  simp only [List.mem_append] at hq
  rcases hq with hq | hq
  · cases tid with
    | none => simp at hq
    | some t =>
        by_cases ht : t = ""
        · simp [ht] at hq
        · simp [ht] at hq
          simp [hq, isDeleteReq]
  · cases fid with
    | none => simp at hq
    | some f =>
        by_cases hf : f = ""
        · simp [hf] at hq
        · simp [hf] at hq
          simp [hq, isDeleteReq]

/-- Delete counting distributes over trace concatenation. -/
theorem deleteCount_append (a b : List Request) :
    deleteCount (a ++ b) = deleteCount a + deleteCount b := by
  simp [deleteCount, List.filter_append]

/-- C9: for every loader configuration and every sequence of API
responses, the non-blocking `alazy_load` produces exactly the outcome
and request trace of the blocking `lazy_load`: the two paths run
identical sequencing logic, the embedding differing only in that the
`time.sleep` / `await asyncio.sleep` delay primitives (which issue no
request and alter no state) leave no mark. -/
theorem alazy_load_eq_lazy_load (L : SonioxDocumentLoader) (w : World) :
    L.alazy_load w = L.lazy_load w := by
  unfold SonioxDocumentLoader.alazy_load SonioxDocumentLoader.lazy_load
  simp only [runStepsAsync_eq]

/-- C5: a construction call with zero or two-or-more non-`None` audio
sources raises the source-count `SonioxClientError` (the constructor
consults no network: `init` has no `World` input and issues no
request), and with exactly one source plus a resolvable API key (a
truthy argument or a truthy `SONIOX_API_KEY` value) construction
succeeds. -/
theorem construction_requires_exactly_one_source (a : InitArgs)
    (env : Option String) :
    (argsProvided a ≠ 1 →
      SonioxDocumentLoader.init a env = Except.error (InitError.clientError
        "You must specify exactly one of 'file_path', 'file_data', or 'file_url'.")) ∧
    (argsProvided a = 1 →
      (truthyStr a.api_key = true ∨ truthyStr env = true) →
      ∃ L, SonioxDocumentLoader.init a env = Except.ok L) := by
  constructor
  · intro h
    simp [SonioxDocumentLoader.init, h]
  · intro h1 h2
    have hM : ∃ s, resolve_api_key a.api_key env = Except.ok s ∧ s ≠ "" := by
      cases hk : a.api_key with
      | some k =>
          by_cases hke : k = ""
          · rcases h2 with h2 | h2
            · rw [hk] at h2
              simp [truthyStr, hke] at h2
            · obtain ⟨v, hv1, hv2⟩ := truthyStr_some_inv h2
              exact ⟨v, by simp [resolve_api_key, hke, get_from_env, hv1, hv2], hv2⟩
          · exact ⟨k, by simp [resolve_api_key, hke], hke⟩
      | none =>
          rcases h2 with h2 | h2
          · rw [hk] at h2
            simp [truthyStr] at h2
          · obtain ⟨v, hv1, hv2⟩ := truthyStr_some_inv h2
            exact ⟨v, by simp [resolve_api_key, get_from_env, hv1, hv2], hv2⟩
    obtain ⟨s, hs1, hs2⟩ := hM
    refine ⟨{ api_key := s, file_path := a.file_path, file_data := a.file_data,
              file_url := a.file_url,
              polling_interval_seconds := a.polling_interval_seconds,
              timeout_seconds := a.timeout_seconds, base_url := a.base_url,
              options := a.options.getD {},
              http_request_timeout_seconds := a.http_request_timeout_seconds },
      ?_⟩
    unfold SonioxDocumentLoader.init
    rw [if_neg (by simp [h1]), hs1]
    simp [hs2]

/-- C5 witness: two sources are rejected with the source-count client
error; one source plus an API-key argument constructs a loader. -/
theorem construction_requires_exactly_one_source_witness :
    (SonioxDocumentLoader.init
        { file_path := some "test.mp3", file_data := some [1] } none =
      Except.error (InitError.clientError
        "You must specify exactly one of 'file_path', 'file_data', or 'file_url'.")) ∧
    ∃ L, SonioxDocumentLoader.init
        { file_path := some "test.mp3", api_key := some "test_key" } none =
      Except.ok L :=
  ⟨(construction_requires_exactly_one_source
      { file_path := some "test.mp3", file_data := some [1] } none).1 (by decide),
    (construction_requires_exactly_one_source
      { file_path := some "test.mp3", api_key := some "test_key" } none).2
      (by decide) (Or.inl (by decide))⟩

/-- C6 counterexample: constructing with `file_path="test.mp3"` and no
API key (argument or environment) raises the `ValueError` coming from
`langchain_core.utils.get_from_env` — exactly what the repository's
`test_missing_api_key` asserts — and not the loader's
`SonioxClientError`: the `if not self.api_key` guard at
`document_loaders.py` lines 69–72 is unreachable. -/
theorem missing_api_key_not_client_error :
    (SonioxDocumentLoader.init { file_path := some "test.mp3" } none =
      Except.error (InitError.valueError missingKeyMessage)) ∧
    isClientErrorResult
      (SonioxDocumentLoader.init { file_path := some "test.mp3" } none) = false := by
  decide

/-- C6 (amended): a construction call with exactly one source, no
`api_key` argument and no truthy `SONIOX_API_KEY` environment value
fails synchronously (before any network call — `init` consults no
`World`) with the `ValueError` raised inside the environment lookup,
not with the loader's `SonioxClientError`. -/
theorem missing_api_key_raises_valueerror (a : InitArgs) (env : Option String)
    (hargs : argsProvided a = 1) (hkey : a.api_key = none)
    (henv : truthyStr env = false) :
    SonioxDocumentLoader.init a env =
      Except.error (InitError.valueError missingKeyMessage) := by
  have hres : resolve_api_key a.api_key env =
      Except.error (InitError.valueError missingKeyMessage) := by
    rw [hkey]
    cases env with
    | none => rfl
    | some v =>
        have hv : v = "" := by simpa [truthyStr] using henv
        simp [resolve_api_key, get_from_env, hv, missingKeyMessage]
  unfold SonioxDocumentLoader.init
  rw [if_neg (by simp [hargs]), hres]

/-- C6 witness: the amended statement at the repository's own test
input. -/
theorem missing_api_key_raises_valueerror_witness :
    SonioxDocumentLoader.init { file_path := some "test.mp3" } none =
      Except.error (InitError.valueError missingKeyMessage) :=
  missing_api_key_raises_valueerror { file_path := some "test.mp3" } none
    (by decide) rfl rfl

/-- With all three sources falsy, the run raises the payload
preparation's `SonioxClientError` before any request is issued. -/
theorem lazy_load_no_source (L : SonioxDocumentLoader) (w : World) (b : String)
    (hbase : L.base_url = some b)
    (h1 : truthyBytes L.file_data = false) (h2 : truthyStr L.file_path = false)
    (h3 : truthyStr L.file_url = false) :
    L.lazy_load w =
      some (Except.error (Failure.clientError "No file source provided."), []) := by
  have hu : uploadStep L w = (Except.ok none, []) := uploadStep_skip w h1 h2
  have hprep : L._prepare_create_payload none =
      Except.error (Failure.clientError "No file source provided.") := by
    have h4 : truthyStr (none : Option String) = false := rfl
    simp [SonioxDocumentLoader._prepare_create_payload, h3, h4]
  have hrun : runSteps L w = ⟨some (Except.error (Failure.clientError
      "No file source provided.")), [], none, none⟩ := by
    unfold runSteps
    rw [hu]
    simp [hprep]
  unfold SonioxDocumentLoader.lazy_load
  rw [hbase]
  simp [hrun, cleanupRequests]

/-- C10: for an input that passes construction but holds a falsy audio
source — `file_data=b""`, `file_path=""` or `file_url=""` — the run
raises `SonioxClientError("No file source provided.")` with an empty
request trace: no network request is made, zero documents are yielded,
and the cleanup block performs no delete because no identifier was
obtained. -/
theorem falsy_source_fails_before_any_request (a : InitArgs) (env : Option String)
    (L : SonioxDocumentLoader) (w : World) (b : String)
    (hinit : SonioxDocumentLoader.init a env = Except.ok L)
    (hbase : a.base_url = some b)
    (hsrc : a.file_data = some [] ∨ a.file_path = some "" ∨ a.file_url = some "") :
    L.lazy_load w =
      some (Except.error (Failure.clientError "No file source provided."), []) := by
  obtain ⟨hargs, hpath, hdata, hurl, hbase2⟩ := init_ok_inv hinit
  rcases hsrc with hs | hs | hs
  · have hpn : a.file_path = none ∧ a.file_url = none := by
      rcases hp : a.file_path with _ | p
      · rcases hu2 : a.file_url with _ | u
        · exact ⟨rfl, rfl⟩
        · exfalso; simp [argsProvided, hp, hu2, hs] at hargs
      · exfalso
        rcases hu2 : a.file_url with _ | u <;>
          simp [argsProvided, hp, hu2, hs] at hargs
    exact lazy_load_no_source L w b (by rw [hbase2, hbase])
      (by rw [hdata, hs]; decide) (by rw [hpath, hpn.1]; decide)
      (by rw [hurl, hpn.2]; decide)
  · have hpn : a.file_data = none ∧ a.file_url = none := by
      rcases hp : a.file_data with _ | p
      · rcases hu2 : a.file_url with _ | u
        · exact ⟨rfl, rfl⟩
        · exfalso; simp [argsProvided, hp, hu2, hs] at hargs
      · exfalso
        rcases hu2 : a.file_url with _ | u <;>
          simp [argsProvided, hp, hu2, hs] at hargs
    exact lazy_load_no_source L w b (by rw [hbase2, hbase])
      (by rw [hdata, hpn.1]; decide) (by rw [hpath, hs]; decide)
      (by rw [hurl, hpn.2]; decide)
  · have hpn : a.file_data = none ∧ a.file_path = none := by
      rcases hp : a.file_data with _ | p
      · rcases hu2 : a.file_path with _ | u
        · exact ⟨rfl, rfl⟩
        · exfalso; simp [argsProvided, hp, hu2, hs] at hargs
      · exfalso
        rcases hu2 : a.file_path with _ | u <;>
          simp [argsProvided, hp, hu2, hs] at hargs
    exact lazy_load_no_source L w b (by rw [hbase2, hbase])
      (by rw [hdata, hpn.1]; decide) (by rw [hpath, hpn.2]; decide)
      (by rw [hurl, hs]; decide)

/-- C10 witness: the empty-bytes loader in a fully successful world
still fails with the no-source client error and an empty trace. -/
theorem falsy_source_fails_before_any_request_witness :
    emptyDataLoader.lazy_load successWorld =
      some (Except.error (Failure.clientError "No file source provided."), []) :=
  falsy_source_fails_before_any_request
    { file_data := some [], api_key := some "test_key" } none emptyDataLoader
    successWorld "https://api.soniox.com/v1" (by decide) rfl (Or.inl rfl)

/-- C7: whenever `_prepare_create_payload` builds a payload, the
serialized (`exclude_none`) key set contains an option field exactly
when the caller set it (and always `model`, which has a default), and
contains exactly one of `audio_url` (present iff a truthy `file_url`
was configured, holding that URL) or `file_id` (present otherwise,
holding the uploaded file's identifier) — never both, never neither. -/
theorem create_payload_excludes_unset_and_one_source
    (L : SonioxDocumentLoader) (fid : Option String)
    (req : SonioxCreateTranscriptionRequest)
    (h : L._prepare_create_payload fid = Except.ok req) :
    ("model" ∈ req.dumpKeys) ∧
    (("audio_url" ∈ req.dumpKeys) ↔ truthyStr L.file_url = true) ∧
    (("file_id" ∈ req.dumpKeys) ↔ truthyStr L.file_url = false) ∧
    ¬(("audio_url" ∈ req.dumpKeys) ∧ ("file_id" ∈ req.dumpKeys)) ∧
    (("audio_url" ∈ req.dumpKeys) ∨ ("file_id" ∈ req.dumpKeys)) ∧
    (truthyStr L.file_url = true → req.audio_url = L.file_url) ∧
    (truthyStr L.file_url = false → req.file_id = fid) ∧
    (("language_hints" ∈ req.dumpKeys) ↔
      L.options.language_hints.isSome = true) ∧
    (("language_hints_strict" ∈ req.dumpKeys) ↔
      L.options.language_hints_strict.isSome = true) ∧
    (("enable_speaker_diarization" ∈ req.dumpKeys) ↔
      L.options.enable_speaker_diarization.isSome = true) ∧
    (("enable_language_identification" ∈ req.dumpKeys) ↔
      L.options.enable_language_identification.isSome = true) ∧
    (("translation" ∈ req.dumpKeys) ↔ L.options.translation.isSome = true) ∧
    (("context" ∈ req.dumpKeys) ↔ L.options.context.isSome = true) ∧
    (("webhook_url" ∈ req.dumpKeys) ↔ L.options.webhook_url.isSome = true) ∧
    (("webhook_auth_header_name" ∈ req.dumpKeys) ↔
      L.options.webhook_auth_header_name.isSome = true) ∧
    (("webhook_auth_header_value" ∈ req.dumpKeys) ↔
      L.options.webhook_auth_header_value.isSome = true) ∧
    (("client_reference_id" ∈ req.dumpKeys) ↔
      L.options.client_reference_id.isSome = true) := by
  unfold SonioxDocumentLoader._prepare_create_payload at h
  by_cases hu : truthyStr L.file_url = true
  · rw [if_pos hu] at h
    injection h with h
    subst h
    obtain ⟨u, hu1, hu2⟩ := truthyStr_some_inv hu
    and_intros <;>
      simp [SonioxCreateTranscriptionRequest.dumpKeys, mem_if_singleton,
        SonioxTranscriptionOptions.toRequest, hu, hu1, hu2, truthyStr]
  · rw [if_neg hu] at h
    rw [Bool.not_eq_true] at hu
    by_cases hf : truthyStr fid = true
    · rw [if_pos hf] at h
      injection h with h
      subst h
      obtain ⟨f, hf1, hf2⟩ := truthyStr_some_inv hf
      and_intros <;>
        simp [SonioxCreateTranscriptionRequest.dumpKeys, mem_if_singleton,
          SonioxTranscriptionOptions.toRequest, hu, hf1, hf2]
    · rw [if_neg hf] at h
      simp at h

/-- C7 witness: the default-options URL payload keeps `model`, carries
`audio_url` and not `file_id`, and omits every unset option field. -/
theorem create_payload_excludes_unset_and_one_source_witness :
    ("model" ∈ urlPayload.dumpKeys) ∧
    ¬(("audio_url" ∈ urlPayload.dumpKeys) ∧ ("file_id" ∈ urlPayload.dumpKeys)) ∧
    (("language_hints" ∈ urlPayload.dumpKeys) ↔
      urlLoader.options.language_hints.isSome = true) :=
  ⟨(create_payload_excludes_unset_and_one_source urlLoader none urlPayload
      (by decide)).1,
    (create_payload_excludes_unset_and_one_source urlLoader none urlPayload
      (by decide)).2.2.2.1,
    (create_payload_excludes_unset_and_one_source urlLoader none urlPayload
      (by decide)).2.2.2.2.2.2.2.1⟩

/-- C4: the polling loop raises `SonioxTimeoutError` exactly when an
iteration boundary sees the elapsed wall-clock reading strictly exceed
`timeout_seconds` — (1) if every earlier iteration fell through and the
boundary reading strictly exceeds the deadline, the timeout failure is
raised and no request is issued for that iteration (the check precedes
the iteration's status GET); (2) if the boundary reading merely reaches
but does not exceed the deadline, that iteration's status request is
issued; (3) every raised timeout traces back to such a boundary; and
(4) the timeout failure is a different kind from the `error`-status
failure. -/
theorem poll_timeout_iff_elapsed_strictly_exceeds
    (t : ℚ) (tid m : String)
    (pre rest polls : List (ℚ × HttpResponse SonioxTranscriptionStatusResponse))
    (e : ℚ) (r : HttpResponse SonioxTranscriptionStatusResponse)
    (reqs : List Request) :
    ((∀ p ∈ pre, pollContinues t p = true) → t < e →
      pollLoop t tid (pre ++ (e, r) :: rest) =
        (some (Except.error (Failure.timeoutError
          ("Transcription timed out after " ++ toString t ++ "s"))),
          List.replicate pre.length (Request.getStatus tid))) ∧
    ((∀ p ∈ pre, pollContinues t p = true) → ¬ t < e →
      ∃ tl, (pollLoop t tid (pre ++ (e, r) :: rest)).2 =
        List.replicate pre.length (Request.getStatus tid) ++
          Request.getStatus tid :: tl) ∧
    (pollLoop t tid polls = (some (Except.error (Failure.timeoutError m)), reqs) →
      ∃ pre2 er rest2, polls = pre2 ++ er :: rest2 ∧
        (∀ p ∈ pre2, pollContinues t p = true) ∧ t < er.1 ∧
        reqs = List.replicate pre2.length (Request.getStatus tid)) ∧
    (∀ m1 m2, Failure.timeoutError m1 ≠ Failure.transcriptionFailed m2) := by
  refine ⟨?_, ?_, ?_, ?_⟩
  · intro hpre hlt
    rw [pollLoop_append_continues t tid pre _ hpre]
    simp [pollLoop, hlt]
  · intro hpre hnlt
    have hx : ∃ tl, (pollLoop t tid ((e, r) :: rest)).2 =
        Request.getStatus tid :: tl := by
      by_cases herr : r.is_error = true
      · exact ⟨[], by simp [pollLoop, hnlt, herr]⟩
      · cases hb : r.body with
        | none => exact ⟨[], by simp [pollLoop, hnlt, herr, hb]⟩
        | some sd =>
            by_cases hc : sd.status = TranscriptionStatus.completed
            · exact ⟨[], by simp [pollLoop, hnlt, herr, hb, hc]⟩
            · by_cases hs : sd.status = TranscriptionStatus.error
              · exact ⟨[], by simp [pollLoop, hnlt, herr, hb, hc, hs]⟩
              · exact ⟨(pollLoop t tid rest).2,
                  by simp [pollLoop, hnlt, herr, hb, hc, hs]⟩
    obtain ⟨tl, htl⟩ := hx
    rw [pollLoop_append_continues t tid pre _ hpre]
    exact ⟨tl, by rw [htl]⟩
  · exact fun h => pollLoop_timeout_inv t tid polls m reqs h
  · intro m1 m2
    simp

/-- C4 witness: with a five-second deadline, readings 0 then 6 issue
one status request and then time out at the second boundary without a
second request. -/
theorem poll_timeout_iff_elapsed_strictly_exceeds_witness :
    pollLoop 5 "trans_456" [(0, processingResp), (6, processingResp)] =
      (some (Except.error (Failure.timeoutError
        ("Transcription timed out after " ++ toString (5 : ℚ) ++ "s"))),
        [Request.getStatus "trans_456"]) :=
  (poll_timeout_iff_elapsed_strictly_exceeds 5 "trans_456" ""
      [(0, processingResp)] [] [] 6 processingResp []).1 (by decide) (by decide)

/-- C8: when a status poll parses to the `error` status, the run fails
with `SonioxTranscriptionFailedError` whose message extends the
server-provided `error_message` (here: ends with it), and no
transcript fetch is ever issued — not in the body, and the cleanup
deletes cannot be one. -/
theorem error_status_raises_failed_without_fetch
    (L : SonioxDocumentLoader) (w : World) (b : String)
    (fid : Option String) (ureqs : List Request)
    (payload : SonioxCreateTranscriptionRequest)
    (cb : SonioxCreateTranscriptionResponse)
    (pre rest : List (ℚ × HttpResponse SonioxTranscriptionStatusResponse))
    (e : ℚ) (r : HttpResponse SonioxTranscriptionStatusResponse)
    (sd : SonioxTranscriptionStatusResponse) (m : String)
    (hbase : L.base_url = some b)
    (hupload : uploadStep L w = (Except.ok fid, ureqs))
    (hprep : L._prepare_create_payload fid = Except.ok payload)
    (hcerr : w.create.is_error = false)
    (hcbody : w.create.body = some cb)
    (hpolls : w.polls = pre ++ (e, r) :: rest)
    (hpre : ∀ p ∈ pre, pollContinues L.timeout_seconds p = true)
    (hte : ¬ L.timeout_seconds < e)
    (herr : r.is_error = false)
    (hb : r.body = some sd)
    (hs : sd.status = TranscriptionStatus.error)
    (hmsg : sd.error_message = some m) :
    ∃ trace,
      L.lazy_load w = some (Except.error (Failure.transcriptionFailed
        ("Transcription failed: " ++ m)), trace) ∧
      (∀ s, Request.getTranscript s ∉ trace) ∧
      ∃ p, "Transcription failed: " ++ m = p ++ m := by
  have hc : ¬ sd.status = TranscriptionStatus.completed := by
    rw [hs]; simp
  have hpoll : pollLoop L.timeout_seconds cb.id w.polls =
      (some (Except.error (Failure.transcriptionFailed
        ("Transcription failed: " ++ m))),
        List.replicate pre.length (Request.getStatus cb.id) ++
          [Request.getStatus cb.id]) := by
    rw [hpolls, pollLoop_append_continues _ _ _ _ hpre]
    simp [pollLoop, hte, herr, hb, hs, hc, pyStrOpt, hmsg]
  have hrun : runSteps L w = ⟨some (Except.error (Failure.transcriptionFailed
      ("Transcription failed: " ++ m))),
      ureqs ++ [Request.postTranscriptions payload] ++
        (List.replicate pre.length (Request.getStatus cb.id) ++
          [Request.getStatus cb.id]),
      fid, some cb.id⟩ := by
    unfold runSteps
    rw [hupload]
    simp [hprep, hcerr, hcbody, hpoll]
  refine ⟨ureqs ++ [Request.postTranscriptions payload] ++
      (List.replicate pre.length (Request.getStatus cb.id) ++
        [Request.getStatus cb.id]) ++ cleanupRequests (some cb.id) fid,
    ?_, ?_, ⟨"Transcription failed: ", rfl⟩⟩
  · unfold SonioxDocumentLoader.lazy_load
    rw [hbase]
    simp [hrun]
  · intro s hmem
    have hups : ureqs = [] ∨ ureqs = [Request.postFiles] := by
      have h0 := uploadStep_requests L w
      rw [hupload] at h0
      exact h0
    rcases List.mem_append.mp hmem with h1 | hD
    · rcases List.mem_append.mp h1 with h2 | hC
      · rcases List.mem_append.mp h2 with hA | hB
        · rcases hups with h0 | h0 <;> rw [h0] at hA <;> simp at hA
        · simp at hB
      · rcases List.mem_append.mp hC with hrep | hget
        · have h3 := List.eq_of_mem_replicate hrep
          simp at h3
        · simp at hget
    · have hd := cleanup_mem_delete (some cb.id) fid _ hD
      simp [isDeleteReq] at hd

/-- C8 witness: an `error` poll with message "Audio format not
supported" fails the URL run with that message and without any
transcript fetch. -/
theorem error_status_raises_failed_without_fetch_witness :
    ∃ trace,
      urlLoader.lazy_load errorStatusWorld =
        some (Except.error (Failure.transcriptionFailed
          ("Transcription failed: " ++ "Audio format not supported")), trace) ∧
      (∀ s, Request.getTranscript s ∉ trace) ∧
      ∃ p, "Transcription failed: " ++ "Audio format not supported" =
        p ++ "Audio format not supported" :=
  error_status_raises_failed_without_fetch urlLoader errorStatusWorld
    "https://api.soniox.com/v1" none [] urlPayload sampleCreateBody [] []
    0 { status_code := 200, body := some sampleErrorStatus }
    sampleErrorStatus "Audio format not supported"
    rfl (by decide) (by decide) (by decide) rfl rfl (by simp) (by decide)
    (by decide) rfl rfl rfl

/-- C2: a run of the `try` body that yields a document (the single
success outcome) yields it with text equal to the transcript
response's `text`, exactly as many metadata token records as the
transcript's token list, the `transcription_id` obtained at job
creation (also the identifier metadata carries), `audio_duration_ms`,
`model` and `created_at` taken from the final (`completed`) status
response, and `source` equal to the configured URL if one was given,
else the configured path if one was given, else the `"file_upload"`
sentinel for in-memory data. -/
theorem successful_run_yields_transcript_document
    (L : SonioxDocumentLoader) (w : World) (d : Document)
    (reqs : List Request) (fid tid : Option String)
    (hone : sourcesProvided L = 1)
    (h : runSteps L w = ⟨some (Except.ok d), reqs, fid, tid⟩) :
    ∃ t cb fs preqs tr,
      tid = some t ∧ w.create.body = some cb ∧ t = cb.id ∧
      pollLoop L.timeout_seconds t w.polls = (some (Except.ok fs), preqs) ∧
      w.transcript.body = some tr ∧
      d.page_content = tr.text ∧
      d.metadata.tokens.length = tr.tokens.length ∧
      d.metadata.transcription_id = t ∧
      d.metadata.audio_duration_ms = fs.audio_duration_ms ∧
      d.metadata.model = fs.model ∧
      d.metadata.created_at = fs.created_at ∧
      d.metadata.source =
        (match L.file_url, L.file_path with
          | some u, _ => u
          | none, some p => p
          | none, none => "file_upload") := by
  obtain ⟨hup, ⟨payload, hprep⟩, hcerr, cb, hcbody, htid, fs, preqs, hpoll,
    hterr, tr, htr, hd⟩ := runSteps_ok_inv h
  subst htid
  refine ⟨cb.id, cb, fs, preqs, tr, rfl, hcbody, rfl, hpoll, htr,
    by rw [hd]; rfl, by rw [hd]; rfl, by rw [hd]; rfl, by rw [hd]; rfl,
    by rw [hd]; rfl, by rw [hd]; rfl, ?_⟩
  rw [hd]
  show pyOrStr L.file_url (pyOrStr L.file_path "file_upload") = _
  rcases hu : L.file_url with _ | u
  · rcases hp : L.file_path with _ | p
    · simp [pyOrStr]
    · by_cases hpe : p = ""
      · exfalso
        have hdata : L.file_data = none := by
          rcases hd2 : L.file_data with _ | dd
          · rfl
          · exfalso; simp [sourcesProvided, hu, hp, hd2] at hone
        have hskip := uploadStep_skip (L := L) w (by rw [hdata]; decide)
          (by rw [hp, hpe]; decide)
        have hfid : fid = none := by
          rw [hskip] at hup
          simpa using hup.symm
        rcases prepare_ok_inv hprep with hx | ⟨hx1, f, hf1, hf2⟩
        · rw [hu] at hx; simp [truthyStr] at hx
        · rw [hfid] at hf1; simp at hf1
      · simp [pyOrStr, hu, hp, hpe]
  · by_cases hue : u = ""
    · exfalso
      have hpath : L.file_path = none := by
        rcases hp2 : L.file_path with _ | pp
        · rfl
        · exfalso; simp [sourcesProvided, hu, hp2] at hone
      have hdata : L.file_data = none := by
        rcases hd2 : L.file_data with _ | dd
        · rfl
        · exfalso; simp [sourcesProvided, hu, hd2] at hone
      have hskip := uploadStep_skip (L := L) w (by rw [hdata]; decide)
        (by rw [hpath]; decide)
      have hfid : fid = none := by
        rw [hskip] at hup
        simpa using hup.symm
      rcases prepare_ok_inv hprep with hx | ⟨hx1, f, hf1, hf2⟩
      · rw [hu, hue] at hx; simp [truthyStr] at hx
      · rw [hfid] at hf1; simp at hf1
    · simp [pyOrStr, hu, hue]

/-- C2 witness: the URL loader's successful run against the canned
responses, with every conclusion instantiated concretely. -/
theorem successful_run_yields_transcript_document_witness :
    ∃ t cb fs preqs tr,
      (some "trans_456" : Option String) = some t ∧
      successWorld.create.body = some cb ∧ t = cb.id ∧
      pollLoop urlLoader.timeout_seconds t successWorld.polls =
        (some (Except.ok fs), preqs) ∧
      successWorld.transcript.body = some tr ∧
      successDocUrl.page_content = tr.text ∧
      successDocUrl.metadata.tokens.length = tr.tokens.length ∧
      successDocUrl.metadata.transcription_id = t ∧
      successDocUrl.metadata.audio_duration_ms = fs.audio_duration_ms ∧
      successDocUrl.metadata.model = fs.model ∧
      successDocUrl.metadata.created_at = fs.created_at ∧
      successDocUrl.metadata.source =
        (match urlLoader.file_url, urlLoader.file_path with
          | some u, _ => u
          | none, some p => p
          | none, none => "file_upload") :=
  successful_run_yields_transcript_document urlLoader successWorld successDocUrl
    urlBodyTrace none (some "trans_456") (by decide) (by decide)

/-- C3 (amended): when one of the four network steps returns an
error-class (4xx–5xx, httpx `is_error`) response, no later step
executes and the run fails with `SonioxAPIError` carrying that
response's status code; the error message is the structured body's
`message` when it parses, else the raw response text, else the generic
`"Request failed with status N"` when the text is empty.  Each
conjunct pins the complete request trace at the point of failure, and
the final conjunct propagates the failure through the cleanup block to
the caller. -/
theorem error_class_response_halts_with_api_error
    (L : SonioxDocumentLoader) (w : World) :
    (∀ (r0 : HttpResponse SonioxTranscriptResponse), r0.errorParse = none →
      apiFailure r0 = Failure.apiError r0.status_code
        (if r0.text = "" then "Request failed with status " ++ toString r0.status_code
          else r0.text)) ∧
    ((truthyBytes L.file_data = true ∨
        (truthyBytes L.file_data = false ∧ truthyStr L.file_path = true ∧
          w.fileReadOk = true)) →
      w.upload.is_error = true →
      runSteps L w = ⟨some (Except.error (Failure.apiError w.upload.status_code
          (apiErrorMessage w.upload))), [Request.postFiles], none, none⟩) ∧
    (∀ fid ureqs payload, uploadStep L w = (Except.ok fid, ureqs) →
      L._prepare_create_payload fid = Except.ok payload →
      w.create.is_error = true →
      runSteps L w = ⟨some (Except.error (Failure.apiError w.create.status_code
          (apiErrorMessage w.create))),
        ureqs ++ [Request.postTranscriptions payload], fid, none⟩) ∧
    (∀ tid pre e r rest, w.polls = pre ++ (e, r) :: rest →
      (∀ p ∈ pre, pollContinues L.timeout_seconds p = true) →
      ¬ L.timeout_seconds < e → r.is_error = true →
      pollLoop L.timeout_seconds tid w.polls =
        (some (Except.error (Failure.apiError r.status_code (apiErrorMessage r))),
          List.replicate pre.length (Request.getStatus tid) ++
            [Request.getStatus tid])) ∧
    (∀ fid ureqs payload cb fs preqs,
      uploadStep L w = (Except.ok fid, ureqs) →
      L._prepare_create_payload fid = Except.ok payload →
      w.create.is_error = false → w.create.body = some cb →
      pollLoop L.timeout_seconds cb.id w.polls = (some (Except.ok fs), preqs) →
      w.transcript.is_error = true →
      runSteps L w = ⟨some (Except.error (Failure.apiError w.transcript.status_code
          (apiErrorMessage w.transcript))),
        ureqs ++ [Request.postTranscriptions payload] ++ preqs ++
          [Request.getTranscript cb.id], fid, some cb.id⟩) ∧
    (∀ res reqs fid tid b, L.base_url = some b →
      runSteps L w = ⟨some res, reqs, fid, tid⟩ →
      L.lazy_load w = some (res, reqs ++ cleanupRequests tid fid)) := by
  refine ⟨?_, ?_, ?_, ?_, ?_, ?_⟩
  · intro r0 hep
    simp [apiFailure, apiErrorMessage, hep]
  · intro hsrc herr
    have hu : uploadStep L w =
        (Except.error (apiFailure w.upload), [Request.postFiles]) := by
      rcases hsrc with h1 | ⟨h1, h2, h3⟩
      · simp [uploadStep, h1, herr]
      · simp [uploadStep, h1, h2, h3, herr]
    unfold runSteps
    rw [hu]
    simp [apiFailure]
  · intro fid ureqs payload hu hp herr
    unfold runSteps
    rw [hu]
    simp [hp, herr, apiFailure]
  · intro tid pre e r rest hpolls hpre hte herr
    rw [hpolls, pollLoop_append_continues _ _ _ _ hpre]
    simp [pollLoop, hte, herr, apiFailure]
  · intro fid ureqs payload cb fs preqs hu hp hcerr hcb hpoll herr
    unfold runSteps
    rw [hu]
    simp [hp, hcerr, hcb, hpoll, herr, apiFailure]
  · intro res reqs fid tid b hbase hrun
    unfold SonioxDocumentLoader.lazy_load
    rw [hbase]
    simp [hrun]

/-- C3 counterexample: the 3xx status code 300 is non-2xx, yet
`httpx.Response.is_error` does not classify it as an error, so a
300-status job-creation response does not halt the run and no
`SonioxAPIError` is raised: with a parseable body the run continues
through polling and transcript fetch and succeeds. -/
theorem redirect_create_response_does_not_halt :
    redirectWorld.create.status_code = 300 ∧
    ¬(200 ≤ redirectWorld.create.status_code ∧
        redirectWorld.create.status_code ≤ 299) ∧
    (urlLoader.lazy_load redirectWorld).map
        (fun p => (isSuccess p.1, p.2.any isTranscriptFetch)) =
      some (true, true) := by
  decide

/-- C3 witness: a 500 job-creation response with unparseable body halts
the run right after the creation POST, carrying code 500 and the raw
text as message. -/
theorem error_class_response_halts_with_api_error_witness :
    runSteps urlLoader create500World =
      ⟨some (Except.error (Failure.apiError 500 "Internal Server Error")),
        [Request.postTranscriptions urlPayload], none, none⟩ :=
  (error_class_response_halts_with_api_error urlLoader create500World).2.2.1
    none [] urlPayload (by decide) (by decide) (by decide)

/-- The `try` body's request trace contains no delete at all. -/
theorem runSteps_deleteCount_zero (L : SonioxDocumentLoader) (w : World)
    {res : Option (Except Failure Document)} {reqs : List Request}
    {fid tid : Option String}
    (hrun : runSteps L w = ⟨res, reqs, fid, tid⟩) : deleteCount reqs = 0 := by
  have hr : reqs = (runSteps L w).requests := by rw [hrun]
  rw [hr]
  unfold deleteCount
  rw [List.length_eq_zero]
  exact List.filter_eq_nil_iff.mpr fun q hq => by simp [runSteps_no_delete L w q hq]

/-- C1 counterexample: when the server returns the empty string as the
job identifier, a completed `file_url` run — job id obtained, upload id
not — performs zero deletes, not the one delete the claim requires,
because the `finally` block's `if transcription_id:` guard treats the
obtained empty identifier as falsy. -/
theorem completed_url_run_with_empty_job_id_makes_no_delete :
    (runSteps urlLoader emptyIdWorld).transcription_id = some "" ∧
    (urlLoader.lazy_load emptyIdWorld).map
        (fun p => (isSuccess p.1, deleteCount p.2)) = some (true, 0) := by
  decide

/-- C1 (amended): for every run, the `finally` block runs whatever the
decided outcome (the body's trace, which itself contains no delete, is
extended with the cleanup deletes before outcome and trace are
returned); a job delete is attempted iff a *non-empty* transcription id
was obtained and a file delete iff a *non-empty* upload file id was
obtained; a completed run from a `file_url` source performs exactly one
delete (job only) when the obtained job id is non-empty and zero
otherwise; a completed run from a `file_path`/`file_data` source
performs exactly two deletes (its upload id is necessarily non-empty)
when the job id is non-empty and one otherwise; and whether either
delete raises changes neither outcome nor trace. -/
theorem cleanup_deletes_iff_nonempty_ids (L : SonioxDocumentLoader) (w : World)
    (b1 b2 : Bool) :
    (∀ res reqs fid tid b, L.base_url = some b →
      runSteps L w = ⟨some res, reqs, fid, tid⟩ →
      L.lazy_load w = some (res, reqs ++ cleanupRequests tid fid) ∧
        deleteCount reqs = 0) ∧
    (∀ tid fid t, Request.deleteTranscription t ∈ cleanupRequests tid fid ↔
      (tid = some t ∧ t ≠ "")) ∧
    (∀ tid fid f, Request.deleteFile f ∈ cleanupRequests tid fid ↔
      (fid = some f ∧ f ≠ "")) ∧
    (∀ d reqs fid tid, runSteps L w = ⟨some (Except.ok d), reqs, fid, tid⟩ →
      truthyStr L.file_url = true → truthyBytes L.file_data = false →
      truthyStr L.file_path = false →
      fid = none ∧ ∃ t, tid = some t ∧
        deleteCount (reqs ++ cleanupRequests tid fid) =
          if t = "" then 0 else 1) ∧
    (∀ d reqs fid tid, runSteps L w = ⟨some (Except.ok d), reqs, fid, tid⟩ →
      truthyStr L.file_url = false →
      ∃ t f, tid = some t ∧ fid = some f ∧ f ≠ "" ∧
        deleteCount (reqs ++ cleanupRequests tid fid) =
          if t = "" then 1 else 2) ∧
    (L.lazy_load { w with deleteJobRaises := b1, deleteFileRaises := b2 } =
      L.lazy_load w) := by
  refine ⟨?_, ?_, ?_, ?_, ?_, rfl⟩
  · intro res reqs fid tid b hbase hrun
    refine ⟨?_, runSteps_deleteCount_zero L w hrun⟩
    unfold SonioxDocumentLoader.lazy_load
    rw [hbase]
    simp [hrun]
  · intro tid fid t
    rcases tid with _ | t0 <;> rcases fid with _ | f0
    · simp [cleanupRequests]
    · by_cases hf : f0 = "" <;> simp [cleanupRequests, hf]
    · by_cases ht : t0 = "" <;> simp [cleanupRequests, ht, eq_comm]
      exact fun h => by subst h; exact ht
    · by_cases ht : t0 = "" <;> by_cases hf : f0 = "" <;>
        simp [cleanupRequests, ht, hf, eq_comm] <;>
        exact fun h => by subst h; exact ht
  · intro tid fid f
    rcases tid with _ | t0 <;> rcases fid with _ | f0
    · simp [cleanupRequests]
    · by_cases hf : f0 = "" <;> simp [cleanupRequests, hf, eq_comm]
      exact fun h => by subst h; exact hf
    · by_cases ht : t0 = "" <;> simp [cleanupRequests, ht]
    · by_cases ht : t0 = "" <;> by_cases hf : f0 = "" <;>
        simp [cleanupRequests, ht, hf, eq_comm] <;>
        exact fun h => by subst h; exact hf
  · intro d reqs fid tid hrun hu hdata hpath
    obtain ⟨hup, ⟨payload, hprep⟩, hcerr, cb, hcbody, htid, rest⟩ :=
      runSteps_ok_inv hrun
    have hskip := uploadStep_skip (L := L) w hdata hpath
    have hfid : fid = none := by
      rw [hskip] at hup
      simpa using hup.symm
    subst hfid
    subst htid
    refine ⟨rfl, cb.id, rfl, ?_⟩
    rw [deleteCount_append, runSteps_deleteCount_zero L w hrun]
    by_cases ht : cb.id = "" <;>
      simp [cleanupRequests, deleteCount, isDeleteReq, ht]
  · intro d reqs fid tid hrun hu
    obtain ⟨hup, ⟨payload, hprep⟩, hcerr, cb, hcbody, htid, rest⟩ :=
      runSteps_ok_inv hrun
    rcases prepare_ok_inv hprep with hx | ⟨hx1, f, hf1, hf2⟩
    · rw [hu] at hx
      simp at hx
    · subst htid
      subst hf1
      refine ⟨cb.id, f, rfl, rfl, hf2, ?_⟩
      rw [deleteCount_append, runSteps_deleteCount_zero L w hrun]
      by_cases ht : cb.id = "" <;>
        simp [cleanupRequests, deleteCount, isDeleteReq, ht, hf2]

/-- C1 witness: the completed `file_path` run performs exactly two
deletes — its non-empty job and file identifiers. -/
theorem cleanup_deletes_iff_nonempty_ids_witness :
    ∃ t f, (some "trans_456" : Option String) = some t ∧
      (some "file_123" : Option String) = some f ∧ f ≠ "" ∧
      deleteCount (pathBodyTrace ++
        cleanupRequests (some "trans_456") (some "file_123")) =
        if t = "" then 1 else 2 :=
  (cleanup_deletes_iff_nonempty_ids pathLoader successWorld false
      false).2.2.2.2.1 successDocPath pathBodyTrace (some "file_123")
    (some "trans_456") (by decide) (by decide)

end Soniox
